import Mathlib

/-!
Verification of the sdcflows fieldmap-normalization interfaces
(`sdcflows/interfaces/fmap.py`) against their specification.

Volumes are modelled as lists of voxel values (`List ℚ` or `List ℝ`),
metadata records as association lists from string keys to rational values,
and each nipype interface `_run_interface` body as a pure function.  Helper
functions imported by `fmap.py` from modules that are not part of the
sources (`sdcflows.utils.phasemanip`, `sdcflows.transform`) are modelled
from the spec, as marked in their doc comments.
-/

/-- Error taxonomy of the spec (section 7): cardinality mismatches, missing
physical parameters, numeric-step failures, enumerated-trait rejections and
hard precondition failures. -/
inductive SDCError
  | inputCardinality
  | missingParameter
  | estimation
  | traitValidation
  | precondition
deriving DecidableEq, Repr

/-- A BIDS-style metadata record: a mapping from parameter names to scalar
values, modelled as an association list (first binding of a key wins). -/
abbrev Dict := List (String × ℚ)

/-- First-match lookup of a key in a metadata record. -/
def lookupKey (m : Dict) (key : String) : Option ℚ :=
  match m with
  | [] => none
  | (k, v) :: rest => if k = key then some v else lookupKey rest key

/-- `CheckB0Units._run_interface` (fmap.py lines 141-154): when the `units`
trait is `"Hz"` the input file is returned unchanged; otherwise (the only
other enumerated value is `"rad/s"`) every voxel is divided by 2π and a new
volume is produced.  The voxel scalar type is kept generic over a field with
a distinguished element `pi`; theorems instantiate it with `ℝ` and
`Real.pi`. -/
def checkB0Units_run {K : Type} [Field K] (pi : K) (units : String)
    (data : List K) : List K :=
  if units = "Hz" then data
  else data.map (fun v => v / (2 * pi))

/-- Modelled from the spec (section 4.2, Metadata Reconciler): the reconciled
union of two metadata records — keys present in both are copied once (the
first operand's value; conflicting values are a noted ambiguity the spec
leaves unresolved), keys present in only one are copied as-is. -/
def reconcileUnion (m1 m2 : Dict) : Dict :=
  m1 ++ m2.filter (fun kv => (lookupKey m1 kv.1).isNone)

/-- Modelled from the spec: `subtract_phases` (in `sdcflows.utils.phasemanip`,
which is not among the sources).  Spec section 4.1: the output is the
voxel-wise subtraction of the second phase map from the first, and the output
metadata is the reconciled union (section 4.2) of the two records; a shape
mismatch between paired inputs is a numeric-step failure (`EstimationError`,
section 7). -/
def subtract_phases (p1 p2 : List ℚ) (m1 m2 : Dict) :
    Except SDCError (List ℚ × Dict) :=
  if p1.length ≠ p2.length then .error .estimation
  else .ok (List.zipWith (fun a b => a - b) p1 p2, reconcileUnion m1 m2)

/-- `SubtractPhases._run_interface` (fmap.py lines 78-99) together with the
trait validation of its input spec (lines 60-64: both lists are bounded to
lengths 1-2).  Mismatched counts raise the cardinality error; a single input
passes through unchanged; two inputs are handed to `subtract_phases` (which
receives copies of the metadata records). -/
def subtractPhases_run (phases : List (List ℚ)) (metas : List Dict) :
    Except SDCError (List ℚ × Dict) :=
  if phases.length < 1 ∨ 2 < phases.length ∨ metas.length < 1 ∨ 2 < metas.length then
    .error .traitValidation
  else if phases.length ≠ metas.length then .error .inputCardinality
  else
    match phases, metas with
    | [p], [m] => .ok (p, m)
    | [p1, p2], [m1, m2] => subtract_phases p1 p2 m1 m2
    | _, _ => .error .traitValidation

/-- Modelled from the spec: `delta_te` (in `sdcflows.utils.phasemanip`, which
is not among the sources).  Spec section 4.2: the echo-time difference is
derived, not copied — ΔTE = |TE2 − TE1| in seconds, must be > 0; zero or
missing triggers `MissingParameterError`.  The merged metadata record of a
phase-difference acquisition carries the individual echo times under the
keys `"EchoTime1"` and `"EchoTime2"`. -/
def delta_te (meta : Dict) : Except SDCError ℚ :=
  match lookupKey meta "EchoTime1", lookupKey meta "EchoTime2" with
  | some te1, some te2 =>
      if te2 - te1 = 0 then .error .missingParameter
      else .ok |te2 - te1|
  | _, _ => .error .missingParameter

/-- Modelled from the spec: `phdiff2fmap` (in `sdcflows.utils.phasemanip`,
which is not among the sources).  Spec section 4.1,
`PhaseDifferenceToFieldmap`: the Hz value per voxel is
`phase_difference / (2π · ΔTE)`. -/
def phdiff2fmap {K : Type} [Field K] (pi : K) (data : List K) (dte : K) :
    List K :=
  data.map (fun v => v / (2 * pi * dte))

/-- `Phasediff2Fieldmap._run_interface` (fmap.py lines 117-123): derive ΔTE
from the metadata with `delta_te` and convert the phase-difference volume
with `phdiff2fmap`. -/
def phasediff2Fieldmap_run {K : Type} [Field K] (pi : K) (data : List K)
    (meta : Dict) : Except SDCError (List K) :=
  match delta_te meta with
  | .error e => .error e
  | .ok dte => .ok (phdiff2fmap pi data (dte : K))

/-- Modelled from the spec (section 4.2, Metadata Reconciler): given two
metadata records of paired acquisitions, each carrying its own echo time
under `"EchoTime"`, the derived ΔTE is |TE2 − TE1| (must be > 0; zero or a
missing echo time triggers `MissingParameterError`). -/
def reconcile_delta_te (m1 m2 : Dict) : Except SDCError ℚ :=
  match lookupKey m1 "EchoTime", lookupKey m2 "EchoTime" with
  | some te1, some te2 =>
      if te2 - te1 = 0 then .error .missingParameter
      else .ok |te2 - te1|
  | _, _ => .error .missingParameter

/-- The six phase-encoding directions of the BIDS axes i, j, k, each with an
optional polarity reversal. -/
inductive PEDir
  | i
  | iNeg
  | j
  | jNeg
  | k
  | kNeg
deriving DecidableEq, Repr

/-- `_DisplacementsField2FieldmapInputSpec.pe_dir` (fmap.py lines 160-162):
the enumerated trait accepts exactly the six strings
`"j-", "j", "i", "i-", "k", "k-"`; anything else is rejected at input
validation. -/
def parsePEDir (s : String) : Option PEDir :=
  if s = "j-" then some .jNeg
  else if s = "j" then some .j
  else if s = "i" then some .i
  else if s = "i-" then some .iNeg
  else if s = "k" then some .k
  else if s = "k-" then some .kNeg
  else none

/-- A displacement vector at one voxel. -/
structure Vec3 where
  x : ℚ
  y : ℚ
  z : ℚ
deriving DecidableEq, Repr

/-- The displacement component along a phase-encoding axis. -/
def peComponent : PEDir → Vec3 → ℚ
  | .i, v => v.x
  | .iNeg, v => v.x
  | .j, v => v.y
  | .jNeg, v => v.y
  | .k, v => v.z
  | .kNeg, v => v.z

/-- Sign of a phase-encoding direction: a trailing `"-"` on the axis flips
the sign. -/
def peSign : PEDir → ℚ
  | .i => 1
  | .j => 1
  | .k => 1
  | .iNeg => -1
  | .jNeg => -1
  | .kNeg => -1

/-- Sign of the transform convention: the ITK convention requires a sign
inversion relative to the forward-warp convention. -/
def itkSign (itk_format : Bool) : ℚ := if itk_format then -1 else 1

/-- Modelled from the spec: `disp_to_fmap` (in `sdcflows.transform`, which is
not among the sources).  Spec sections 4.1 and its edge-case policies: a zero
or negative readout time is a hard precondition failure, not a silent
divide; otherwise every voxel's Hz value is the along-axis displacement
divided by the readout time, with the sign determined by the axis direction
suffix and by the convention flag. -/
def disp_to_fmap (field : List Vec3) (ro_time : ℚ) (pe : PEDir)
    (itk_format : Bool) : Except SDCError (List ℚ) :=
  if ro_time ≤ 0 then .error .precondition
  else
    .ok (field.map (fun v => peSign pe * itkSign itk_format * peComponent pe v / ro_time))

/-- `np.median` over rational voxel values: the middle element of the sorted
values when their number is odd, the mean of the two middle elements when it
is even. -/
def npMedian (l : List ℚ) : ℚ :=
  let s := l.mergeSort (fun a b => a ≤ b)
  if l.length % 2 = 1 then s.getD (l.length / 2) 0
  else (s.getD (l.length / 2 - 1) 0 + s.getD (l.length / 2) 0) / 2

/-- `DisplacementsField2Fieldmap._run_interface` (fmap.py lines 179-203)
together with its input spec (lines 157-166): validate the phase-encoding
direction against the enumerated trait, convert the displacement field with
`disp_to_fmap`, and, when `demean` is set, subtract the median of the data
from every voxel. -/
def displacementsField2Fieldmap_run (field : List Vec3) (ro_time : ℚ)
    (pe_dir : String) (demean itk_format : Bool) : Except SDCError (List ℚ) :=
  match parsePEDir pe_dir with
  | none => .error .traitValidation
  | some pe =>
      match disp_to_fmap field ro_time pe itk_format with
      | .error e => .error e
      | .ok data =>
          .ok (if demean then data.map (fun v => v - npMedian data) else data)

/-- A store of metadata objects: Python object identity is modelled as an
index into the store. -/
abbrev Store := List Dict

/-- Dereference a metadata object. -/
def readRef (s : Store) (r : Nat) : Dict := s.getD r []

/-- Mutate a metadata object in place. -/
def writeRef (s : Store) (r : Nat) (d : Dict) : Store := s.set r d

/-- Allocate a fresh metadata object (as `dict.copy()` does) and return its
identity. -/
def allocRef (s : Store) (d : Dict) : Store × Nat := (s ++ [d], s.length)

/-- The metadata side effects of `SubtractPhases._run_interface`'s two-input
path (fmap.py lines 90-97): a `.copy()` of each input metadata dict is
allocated before `subtract_phases` consumes (pops) keys from them in place;
`pops` stands for the arbitrary in-place key consumption `subtract_phases`
applies to each copy it receives. -/
def subtractPhases_metadataEffect (s : Store) (r1 r2 : Nat)
    (pops : Dict → Dict) : Store :=
  let a1 := allocRef s (readRef s r1)
  let a2 := allocRef a1.1 (readRef a1.1 r2)
  writeRef (writeRef a2.1 a1.2 (pops (readRef a2.1 a1.2))) a2.2
    (pops (readRef a2.1 a2.2))

lemma getD_map_of_lt (l : List ℚ) (f : ℚ → ℚ) (i : Nat) (h : i < l.length) :
    (l.map f).getD i 0 = f (l.getD i 0) := by
  rw [List.getD_eq_getElem _ _ (by simpa using h), List.getElem_map,
    List.getD_eq_getElem _ _ h]

lemma getD_reverse_of_lt (l : List ℚ) (i : Nat) (h : i < l.length) :
    l.reverse.getD i 0 = l.getD (l.length - 1 - i) 0 := by
  rw [List.getD_eq_getElem _ _ (by simpa using h), List.getElem_reverse,
    List.getD_eq_getElem _ _ (by omega)]

lemma mergeSort_map_monotone (f : ℚ → ℚ) (hf : Monotone f) (l : List ℚ) :
    (l.map f).mergeSort (fun a b => a ≤ b) =
      (l.mergeSort (fun a b => a ≤ b)).map f := by
  refine @List.eq_of_perm_of_sorted ℚ (fun a b => a ≤ b) inferInstance _ _ ?_ ?_ ?_
  · exact (List.mergeSort_perm _ _).trans ((List.mergeSort_perm l _).map f).symm
  · exact List.sorted_mergeSort' _
  · exact List.Pairwise.map f (fun a b hab => hf hab) (List.sorted_mergeSort' l)

lemma mergeSort_map_neg (l : List ℚ) :
    (l.map (fun v => -v)).mergeSort (fun a b => a ≤ b) =
      ((l.mergeSort (fun a b => a ≤ b)).map (fun v => -v)).reverse := by
  refine @List.eq_of_perm_of_sorted ℚ (fun a b => a ≤ b) inferInstance _ _ ?_ ?_ ?_
  · exact (List.mergeSort_perm _ _).trans
      ((List.reverse_perm _).trans ((List.mergeSort_perm l _).map _)).symm
  · exact List.sorted_mergeSort' _
  · rw [List.Sorted, List.pairwise_reverse]
    exact List.Pairwise.map _ (fun a b hab => neg_le_neg hab)
      (List.sorted_mergeSort' l)

lemma npMedian_map_sub (l : List ℚ) (c : ℚ) (h : l ≠ []) :
    npMedian (l.map (fun v => v - c)) = npMedian l - c := by
  have hmono : Monotone (fun v : ℚ => v - c) := fun a b hab => sub_le_sub_right hab c
  have hlen : l.length ≠ 0 := by simpa [List.length_eq_zero] using h
  have hslen : (l.mergeSort (fun a b => a ≤ b)).length = l.length :=
    List.length_mergeSort ..
  unfold npMedian
  simp only [List.length_map, mergeSort_map_monotone _ hmono]
  by_cases hodd : l.length % 2 = 1
  · simp only [hodd, if_pos]
    rw [getD_map_of_lt _ _ _ (by omega)]
  · simp only [hodd, if_neg, if_false]
    rw [getD_map_of_lt _ _ _ (by omega), getD_map_of_lt _ _ _ (by omega)]
    ring

lemma npMedian_map_neg (l : List ℚ) :
    npMedian (l.map (fun v => -v)) = -npMedian l := by
  rcases eq_or_ne l [] with rfl | h
  · simp [npMedian]
  · have hlen : l.length ≠ 0 := by simpa [List.length_eq_zero] using h
    have hslen : (l.mergeSort (fun a b => a ≤ b)).length = l.length :=
      List.length_mergeSort ..
    unfold npMedian
    simp only [List.length_map, mergeSort_map_neg]
    by_cases hodd : l.length % 2 = 1
    · simp only [hodd, if_pos]
      rw [getD_reverse_of_lt _ _ (by simp; omega)]
      simp only [List.length_map, hslen]
      rw [getD_map_of_lt _ _ _ (by omega)]
      have : l.length - 1 - l.length / 2 = l.length / 2 := by omega
      rw [this]
    · simp only [hodd, if_neg, if_false]
      rw [getD_reverse_of_lt _ _ (by simp; omega),
        getD_reverse_of_lt _ _ (by simp; omega)]
      simp only [List.length_map, hslen]
      rw [getD_map_of_lt _ _ _ (by omega), getD_map_of_lt _ _ _ (by omega)]
      have h1 : l.length - 1 - (l.length / 2 - 1) = l.length / 2 := by omega
      have h2 : l.length - 1 - l.length / 2 = l.length / 2 - 1 := by omega
      rw [h1, h2]
      ring

/-- C2: `CheckB0Units` (EnsureHzUnits) is idempotent: a field tagged "Hz" is
returned unchanged (identity), a field tagged "rad/s" gets every voxel
divided by 2π, and a second pass through the gate — whose input, being the
gate's output, is in Hz — changes nothing, so there is no double
conversion. -/
theorem C2_checkB0Units_idempotent (units : String) (data : List ℝ) :
    checkB0Units_run Real.pi "Hz" data = data ∧
    checkB0Units_run Real.pi "rad/s" data =
      data.map (fun v => v / (2 * Real.pi)) ∧
    checkB0Units_run Real.pi "Hz" (checkB0Units_run Real.pi units data) =
      checkB0Units_run Real.pi units data := by
  refine ⟨rfl, ?_, rfl⟩
  rw [checkB0Units_run, if_neg (by decide)]

/-- C5: `SubtractPhases` with exactly one (volume, metadata) pair is the
identity: it returns that volume and that metadata record unchanged, and
performs no subtraction. -/
theorem C5_subtractPhases_single_identity (p : List ℚ) (m : Dict) :
    subtractPhases_run [p] [m] = .ok (p, m) := by
  simp [subtractPhases_run]

/-- C1: `Phasediff2Fieldmap` outputs a volume whose every voxel is the input
phase difference divided by 2π·ΔTE, where ΔTE is the echo-time difference
derived from the metadata; for a constant input every output voxel is
φ / (2π·t), and the exact equality proved here implies the claimed 1e-6
tolerance. -/
theorem C1_phasediff2Fieldmap_formula (data : List ℝ) (meta : Dict) (t : ℚ)
    (h : delta_te meta = .ok t) :
    phasediff2Fieldmap_run Real.pi data meta =
      .ok (data.map (fun v => v / (2 * Real.pi * (t : ℝ)))) := by
  simp [phasediff2Fieldmap_run, h, phdiff2fmap]

/-- C1 witness: a concrete three-voxel constant phase-difference map with
TE1 = 0.005 s and TE2 = 0.007 s. -/
theorem C1_witness :
    phasediff2Fieldmap_run Real.pi [(1 : ℝ), 1, 1]
        [("EchoTime1", (1/200 : ℚ)), ("EchoTime2", (7/1000 : ℚ))] =
      .ok ([(1 : ℝ), 1, 1].map
        (fun v => v / (2 * Real.pi * (((1 : ℚ)/500 : ℚ) : ℝ)))) := by
  have h : delta_te [("EchoTime1", (1/200 : ℚ)), ("EchoTime2", (7/1000 : ℚ))] =
      .ok (1/500) := by
    simp +decide [delta_te, lookupKey]
    rw [if_neg (by norm_num)]
    congr 1
    rw [abs_of_pos (by norm_num)]
    norm_num
  exact C1_phasediff2Fieldmap_formula _ _ _ h

/-- C3: echo-time reconciliation is order-invariant and guarded: for two
records each carrying an individual echo time the derived ΔTE is |TE2 − TE1|
(hence swapping the records yields the same positive value), and a zero or
missing echo-time difference yields `MissingParameterError`. -/
theorem C3_reconcile_delta_te_order_invariant (m1 m2 : Dict) :
    reconcile_delta_te m1 m2 = reconcile_delta_te m2 m1 ∧
    (∀ d, reconcile_delta_te m1 m2 = .ok d → 0 < d) ∧
    (∀ te1 te2, lookupKey m1 "EchoTime" = some te1 →
      lookupKey m2 "EchoTime" = some te2 → te2 - te1 ≠ 0 →
      reconcile_delta_te m1 m2 = .ok |te2 - te1|) ∧
    (∀ te, lookupKey m1 "EchoTime" = some te →
      lookupKey m2 "EchoTime" = some te →
      reconcile_delta_te m1 m2 = .error .missingParameter) ∧
    ((lookupKey m1 "EchoTime" = none ∨ lookupKey m2 "EchoTime" = none) →
      reconcile_delta_te m1 m2 = .error .missingParameter) := by
  refine ⟨?_, ?_, ?_, ?_, ?_⟩
  · rcases h1 : lookupKey m1 "EchoTime" with _ | te1 <;>
      rcases h2 : lookupKey m2 "EchoTime" with _ | te2 <;>
        simp only [reconcile_delta_te, h1, h2]
    have hiff : te2 - te1 = 0 ↔ te1 - te2 = 0 := by
      constructor <;> intro h0 <;> linarith
    by_cases h0 : te2 - te1 = 0
    · rw [if_pos h0, if_pos (hiff.mp h0)]
    · rw [if_neg h0, if_neg (fun hc => h0 (hiff.mpr hc)), abs_sub_comm]
  · intro d hd
    rcases h1 : lookupKey m1 "EchoTime" with _ | te1 <;>
      rcases h2 : lookupKey m2 "EchoTime" with _ | te2 <;>
        simp only [reconcile_delta_te, h1, h2] at hd <;> try exact absurd hd (by simp)
    by_cases h0 : te2 - te1 = 0
    · rw [if_pos h0] at hd
      exact absurd hd (by simp)
    · rw [if_neg h0] at hd
      have : d = |te2 - te1| := by
        simpa using hd.symm
      rw [this]
      exact abs_pos.mpr h0
  · intro te1 te2 h1 h2 hne
    simp only [reconcile_delta_te, h1, h2]
    rw [if_neg hne]
  · intro te h1 h2
    simp only [reconcile_delta_te, h1, h2]
    rw [if_pos (sub_self te)]
  · intro hnone
    rcases h1 : lookupKey m1 "EchoTime" with _ | te1 <;>
      rcases h2 : lookupKey m2 "EchoTime" with _ | te2 <;>
        simp_all [reconcile_delta_te]

/-- C3 witness: reconciling TE1 = 0.005 s and TE2 = 0.007 s yields
ΔTE = 0.002 s in both argument orders. -/
theorem C3_witness :
    reconcile_delta_te [("EchoTime", (1/200 : ℚ))] [("EchoTime", (7/1000 : ℚ))] =
      .ok (1/500) ∧
    reconcile_delta_te [("EchoTime", (7/1000 : ℚ))] [("EchoTime", (1/200 : ℚ))] =
      .ok (1/500) := by
  have h12 := (C3_reconcile_delta_te_order_invariant
      [("EchoTime", (1/200 : ℚ))] [("EchoTime", (7/1000 : ℚ))]).2.2.1
      (1/200) (7/1000) rfl rfl (by norm_num)
  have hsym := (C3_reconcile_delta_te_order_invariant
      [("EchoTime", (1/200 : ℚ))] [("EchoTime", (7/1000 : ℚ))]).1
  have habs : |(7 : ℚ)/1000 - 1/200| = 1/500 := by
    rw [abs_of_pos (by norm_num)]
    norm_num
  constructor
  · rw [h12, habs]
  · rw [← hsym, h12, habs]

lemma subtract_phases_ne_cardinality (p1 p2 : List ℚ) (m1 m2 : Dict) :
    subtract_phases p1 p2 m1 m2 ≠ .error .inputCardinality := by
  unfold subtract_phases
  split <;> simp

/-- C6: within the cardinalities the input traits admit (each list holds one
or two elements), `SubtractPhases` raises the cardinality error exactly when
the number of phase volumes differs from the number of metadata records. -/
theorem C6_subtractPhases_cardinality (phases : List (List ℚ))
    (metas : List Dict) (hp1 : 1 ≤ phases.length) (hp2 : phases.length ≤ 2)
    (hm1 : 1 ≤ metas.length) (hm2 : metas.length ≤ 2) :
    subtractPhases_run phases metas = .error .inputCardinality ↔
      phases.length ≠ metas.length := by
  unfold subtractPhases_run
  rw [if_neg (by omega)]
  by_cases hlen : phases.length = metas.length
  · rw [if_neg (by omega)]
    rcases phases with _ | ⟨p1, _ | ⟨p2, _ | ⟨p3, ps⟩⟩⟩ <;>
      rcases metas with _ | ⟨m1, _ | ⟨m2, _ | ⟨m3, ms⟩⟩⟩ <;>
        simp_all [subtract_phases_ne_cardinality]
  · rw [if_pos (by omega)]
    simp [hlen]

/-- C6 witness: two phase volumes with a single metadata record. -/
theorem C6_witness :
    subtractPhases_run [[1], [2]] [[("EchoTime", 1)]] =
      .error .inputCardinality := by
  exact (C6_subtractPhases_cardinality [[1], [2]] [[("EchoTime", 1)]]
    (by simp) (by simp) (by simp) (by simp)).mpr (by simp)

/-- C8: a non-positive readout time makes the displacement-field conversion
fail with the hard precondition error — both in `disp_to_fmap` itself and
through `DisplacementsField2Fieldmap` — before any conversion is
performed. -/
theorem C8_nonpositive_readout (field : List Vec3) (t : ℚ) (pe : PEDir)
    (pe_dir : String) (demean itk_format : Bool)
    (hpe : parsePEDir pe_dir = some pe) (ht : t ≤ 0) :
    disp_to_fmap field t pe itk_format = .error .precondition ∧
    displacementsField2Fieldmap_run field t pe_dir demean itk_format =
      .error .precondition := by
  have h1 : disp_to_fmap field t pe itk_format = .error .precondition := by
    rw [disp_to_fmap, if_pos ht]
  refine ⟨h1, ?_⟩
  simp only [displacementsField2Fieldmap_run, hpe, h1]

/-- C8 witness: a zero readout time on a one-voxel field. -/
theorem C8_witness :
    disp_to_fmap [⟨1, 2, 3⟩] 0 PEDir.j false = .error .precondition ∧
    displacementsField2Fieldmap_run [⟨1, 2, 3⟩] 0 "j" false false =
      .error .precondition :=
  C8_nonpositive_readout [⟨1, 2, 3⟩] 0 PEDir.j "j" false false rfl le_rfl

lemma getD_set_ne (l : Store) (i j : Nat) (d : Dict) (h : i ≠ j) :
    (l.set i d).getD j [] = l.getD j [] := by
  simp [List.getD_eq_getElem?_getD, List.getElem?_set_ne h]

/-- C9: `SubtractPhases` never mutates its caller's metadata records: the
two-input path hands `subtract_phases` fresh copies of both dictionaries, so
whatever keys it consumes in place, every pre-existing metadata object in
the store reads back unchanged. -/
theorem C9_no_metadata_mutation (s : Store) (r1 r2 : Nat)
    (pops : Dict → Dict) (h1 : r1 < s.length) (h2 : r2 < s.length) :
    readRef (subtractPhases_metadataEffect s r1 r2 pops) r1 = readRef s r1 ∧
    readRef (subtractPhases_metadataEffect s r1 r2 pops) r2 = readRef s r2 := by
  have key : ∀ r, r < s.length →
      readRef (subtractPhases_metadataEffect s r1 r2 pops) r = readRef s r := by
    intro r hr
    show (((s ++ [readRef s r1] ++ [readRef (s ++ [readRef s r1]) r2]).set
        s.length _).set (s ++ [readRef s r1]).length _).getD r [] = _
    rw [getD_set_ne _ _ _ _ (by simp; omega),
      getD_set_ne _ _ _ _ (by omega),
      List.getD_append _ _ _ _ (by simp; omega),
      List.getD_append _ _ _ _ hr]
    rfl
  exact ⟨key r1 h1, key r2 h2⟩

/-- C9 witness: a two-object store whose metadata records survive the
two-input path even when every key is consumed from the copies. -/
theorem C9_witness :
    readRef (subtractPhases_metadataEffect
      [[("EchoTime", 1)], [("EchoTime", 2)]] 0 1 (fun _ => [])) 0 =
      readRef [[("EchoTime", 1)], [("EchoTime", 2)]] 0 ∧
    readRef (subtractPhases_metadataEffect
      [[("EchoTime", 1)], [("EchoTime", 2)]] 0 1 (fun _ => [])) 1 =
      readRef [[("EchoTime", 1)], [("EchoTime", 2)]] 1 :=
  C9_no_metadata_mutation [[("EchoTime", 1)], [("EchoTime", 2)]] 0 1
    (fun _ => []) (by simp) (by simp)

/-- C10: the phase-encoding directions accepted by
`DisplacementsField2Fieldmap` form the closed six-element set
{"j-", "j", "i", "i-", "k", "k-"}; any other string is rejected at input
validation and never reaches the conversion. -/
theorem C10_pe_dir_closed (s : String) :
    ((parsePEDir s).isSome ↔
      s = "j-" ∨ s = "j" ∨ s = "i" ∨ s = "i-" ∨ s = "k" ∨ s = "k-") ∧
    (parsePEDir s = none → ∀ (field : List Vec3) (t : ℚ) (demean itk_format : Bool),
      displacementsField2Fieldmap_run field t s demean itk_format =
        .error .traitValidation) := by
  constructor
  · unfold parsePEDir
    split_ifs with hc1 hc2 hc3 hc4 hc5 hc6 <;> simp_all
  · intro hnone field t demean itk_format
    rw [displacementsField2Fieldmap_run, hnone]

/-- C10 witness: the string "q" is rejected at validation. -/
theorem C10_witness :
    displacementsField2Fieldmap_run [⟨1, 2, 3⟩] 1 "q" false false =
      .error .traitValidation :=
  (C10_pe_dir_closed "q").2 rfl [⟨1, 2, 3⟩] 1 false false

lemma displacementsField2Fieldmap_run_eq (field : List Vec3) (t : ℚ)
    (pe_dir : String) (pe : PEDir) (demean itk_format : Bool)
    (hpe : parsePEDir pe_dir = some pe) (ht : 0 < t) :
    displacementsField2Fieldmap_run field t pe_dir demean itk_format =
      .ok (if demean
        then (field.map
            (fun v => peSign pe * itkSign itk_format * peComponent pe v / t)).map
          (fun v => v - npMedian (field.map
            (fun v => peSign pe * itkSign itk_format * peComponent pe v / t)))
        else field.map
          (fun v => peSign pe * itkSign itk_format * peComponent pe v / t)) := by
  have hd : disp_to_fmap field t pe itk_format =
      .ok (field.map (fun v => peSign pe * itkSign itk_format * peComponent pe v / t)) := by
    rw [disp_to_fmap, if_neg (not_le.mpr ht)]
  simp only [displacementsField2Fieldmap_run, hpe, hd]

lemma demean_map_neg (demean : Bool) (data : List ℚ) :
    (if demean
      then (data.map (fun v => -v)).map
        (fun v => v - npMedian (data.map (fun v => -v)))
      else data.map (fun v => -v)) =
    (if demean then data.map (fun v => v - npMedian data) else data).map
      (fun v => -v) := by
  cases demean
  · simp
  · simp only [if_true]
    rw [npMedian_map_neg, List.map_map, List.map_map]
    congr 1
    funext v
    simp only [Function.comp]
    ring

/-- C4: phase-encoding axis "j-" versus "j" yields output fields of opposite
sign (a trailing "-" flips the sign), and the ITK-convention flag inverts the
sign relative to the forward-warp convention, for otherwise-identical
inputs. -/
theorem C4_sign_convention (field : List Vec3) (t : ℚ)
    (demean itk_format : Bool) (ht : 0 < t) :
    displacementsField2Fieldmap_run field t "j-" demean itk_format =
      (displacementsField2Fieldmap_run field t "j" demean itk_format).map
        (fun l => l.map (fun v => -v)) ∧
    ∀ pe_dir : String,
      displacementsField2Fieldmap_run field t pe_dir demean true =
        (displacementsField2Fieldmap_run field t pe_dir demean false).map
          (fun l => l.map (fun v => -v)) := by
  constructor
  · rw [displacementsField2Fieldmap_run_eq field t "j-" .jNeg demean itk_format rfl ht,
      displacementsField2Fieldmap_run_eq field t "j" .j demean itk_format rfl ht]
    simp only [Except.map]
    congr 1
    have hdata : field.map
        (fun v => peSign .jNeg * itkSign itk_format * peComponent .jNeg v / t) =
        (field.map
          (fun v => peSign .j * itkSign itk_format * peComponent .j v / t)).map
          (fun v => -v) := by
      rw [List.map_map]
      congr 1
      funext v
      simp only [Function.comp, peSign, peComponent]
      ring
    rw [hdata, demean_map_neg]
  · intro pe_dir
    rcases hpe : parsePEDir pe_dir with _ | pe
    · simp only [displacementsField2Fieldmap_run, hpe, Except.map]
    · rw [displacementsField2Fieldmap_run_eq field t pe_dir pe demean true hpe ht,
        displacementsField2Fieldmap_run_eq field t pe_dir pe demean false hpe ht]
      simp only [Except.map]
      congr 1
      have hdata : field.map
          (fun v => peSign pe * itkSign true * peComponent pe v / t) =
          (field.map
            (fun v => peSign pe * itkSign false * peComponent pe v / t)).map
            (fun v => -v) := by
        rw [List.map_map]
        congr 1
        funext v
        simp only [Function.comp, itkSign]
        norm_num [neg_div]
      rw [hdata, demean_map_neg]

/-- C4 witness: a one-voxel field with unit readout time, checked for the
axis flip "j" versus "j-" and for the convention flip on axis "k". -/
theorem C4_witness :
    displacementsField2Fieldmap_run [⟨1, 2, 3⟩] 1 "j-" false false =
      (displacementsField2Fieldmap_run [⟨1, 2, 3⟩] 1 "j" false false).map
        (fun l => l.map (fun v => -v)) ∧
    displacementsField2Fieldmap_run [⟨1, 2, 3⟩] 1 "k" false true =
      (displacementsField2Fieldmap_run [⟨1, 2, 3⟩] 1 "k" false false).map
        (fun l => l.map (fun v => -v)) :=
  ⟨(C4_sign_convention [⟨1, 2, 3⟩] 1 false false (by norm_num)).1,
    (C4_sign_convention [⟨1, 2, 3⟩] 1 false false (by norm_num)).2 "k"⟩

/-- C7: with `demean` enabled, `DisplacementsField2Fieldmap` subtracts the
voxel-wise median of the converted field from every voxel, so the output's
median is exactly 0; with `demean` disabled the voxel values are not
shifted. -/
theorem C7_demean_median_zero (field : List Vec3) (t : ℚ) (pe_dir : String)
    (pe : PEDir) (itk_format : Bool) (data : List ℚ)
    (hpe : parsePEDir pe_dir = some pe)
    (hd : disp_to_fmap field t pe itk_format = .ok data)
    (hne : data ≠ []) :
    displacementsField2Fieldmap_run field t pe_dir true itk_format =
      .ok (data.map (fun v => v - npMedian data)) ∧
    npMedian (data.map (fun v => v - npMedian data)) = 0 ∧
    displacementsField2Fieldmap_run field t pe_dir false itk_format =
      .ok data := by
  have hmed : npMedian (data.map (fun v => v - npMedian data)) = 0 := by
    rw [npMedian_map_sub data _ hne, sub_self]
  refine ⟨?_, hmed, ?_⟩ <;>
    simp only [displacementsField2Fieldmap_run, hpe, hd] <;> simp

/-- C7 witness: a three-voxel displacement field along axis j with unit
readout time converts to [2, 4, 6]; demeaning shifts it by its median 4 and
the result's median is 0. -/
theorem C7_witness :
    displacementsField2Fieldmap_run [⟨0, 2, 0⟩, ⟨0, 4, 0⟩, ⟨0, 6, 0⟩] 1 "j"
        true false =
      .ok (([2, 4, 6] : List ℚ).map (fun v => v - npMedian [2, 4, 6])) ∧
    npMedian (([2, 4, 6] : List ℚ).map (fun v => v - npMedian [2, 4, 6])) = 0 ∧
    displacementsField2Fieldmap_run [⟨0, 2, 0⟩, ⟨0, 4, 0⟩, ⟨0, 6, 0⟩] 1 "j"
        false false =
      .ok [2, 4, 6] :=
  C7_demean_median_zero [⟨0, 2, 0⟩, ⟨0, 4, 0⟩, ⟨0, 6, 0⟩] 1 "j" PEDir.j false
    [2, 4, 6] rfl
    (by norm_num [disp_to_fmap, peSign, itkSign, peComponent]) (by simp)
